import Mathlib

/-!
# Verification of `audiobook_download.py`

A shallow embedding of the core of the audiobook downloader script:
provider registry, manifest builder, download pipeline, playlist writer,
tag rewriter and search engine.  External collaborators (the `re` regex
engine, the network, the filesystem and the `music_tag` library) are
modelled as explicit function parameters or association lists.
-/

set_option autoImplicit false

namespace Audiobook

/-- Python `slist` (source lines 102-105): safe list indexing, with Python's
negative-index semantics (`lst[-1]` is the last element); out-of-range
indices give the default. -/
def slist {α : Type} (lst : List α) (idx : Int) (default : α) : α :=
  let j : Int := if idx < 0 then (lst.length : Int) + idx else idx
  if 0 ≤ j then lst.getD j.toNat default else default

/-- Python `str.zfill(w)` for the digit strings used here: left-pad with
zeros up to width `w`. -/
def zfill (s : String) (w : Nat) : String :=
  if w ≤ s.length then s else String.mk (List.replicate (w - s.length) '0') ++ s

/-- A compiled regular expression from the source, kept as data: the pattern
string and whether `re.DOTALL` was set.  The regex engine itself
(`re.findall`) is an external collaborator passed in as a function. -/
structure Rx where
  rxpattern : String
  dotall : Bool
deriving DecidableEq

/-- One provider's entry in the `PROVIDERS` registry (source lines 54-92).
Absent dictionary keys are `none`; `slinks_prepend` defaults to `""` the way
`body.get('slinks_prepend','')` does. -/
structure PBody where
  ext : Option String
  rx_chapters : Option Rx
  rx_href : Option Rx
  rx_title : Option Rx
  title_from_href : Bool
  search : Option String
  rx_slinks : Option Rx
  rx_stitles : Option Rx
  slinks_prepend : String
  copy_from : Option String
deriving DecidableEq

/-- An all-`none` provider body, to build the registry rows from. -/
def emptyBody : PBody :=
  ⟨none, none, none, none, false, none, none, none, "", none⟩

/-- Registry row for `https://fulllengthaudiobooks.com/` (source lines 55-61). -/
def flaBody : PBody :=
  { emptyBody with
    ext := some "mp3"
    rx_chapters := some ⟨" src=\"(https://.*?mp3.*?)\"", false⟩
    search := some "https://fulllengthaudiobooks.com/?s=%q"
    rx_slinks := some ⟨"<h2 class=\"entry-title post-title\"><a href=\"(.*?)\".*?rel=\"bookmark\">.*?</a></h2>", false⟩
    rx_stitles := some ⟨"<h2 class=\"entry-title post-title\"><a href=\".*?\".*?rel=\"bookmark\">(.*?)</a></h2>", false⟩ }

/-- Registry row for `https://librivox.org/` (source lines 63-69). -/
def lvxBody : PBody :=
  { emptyBody with
    ext := some "mp3"
    rx_chapters := some ⟨"<tr>(.*?)</tr>", true⟩
    rx_href := some ⟨"</td>.*?<td><a href=\"(.*?\\.mp3.*?)\" class=\"chapter-name\">", true⟩
    rx_title := some ⟨"class=\"chapter-name\">(.*?)</a></td>", true⟩
    title_from_href := true }

/-- Registry row for `https://goldenaudiobooks.com/` (source lines 70-74). -/
def goldenBody : PBody :=
  { emptyBody with
    copy_from := some "https://fulllengthaudiobooks.com/"
    search := some "https://goldenaudiobooks.com/?s=%q"
    rx_slinks := some ⟨"<h2 class=\"entry-title\"><a href=\"(.*?)\".*?rel=\"bookmark\">.*?</a></h2>", false⟩
    rx_stitles := some ⟨"<h2 class=\"entry-title\"><a href=\".*?\".*?rel=\"bookmark\">(.*?)</a></h2>", false⟩ }

/-- Registry row for `https://bookaudiobooks.com/` (source lines 75-79). -/
def bookBody : PBody :=
  { emptyBody with
    copy_from := some "https://fulllengthaudiobooks.com/"
    search := some "https://bookaudiobooks.com/?s=%q"
    rx_slinks := some ⟨"<h2 class=\"entry-title\"><a href=\"(.*?)\".*?rel=\"bookmark\">.*?</a></h2>", false⟩
    rx_stitles := some ⟨"<h2 class=\"entry-title\"><a href=\".*?\".*?rel=\"bookmark\">(.*?)</a></h2>", false⟩ }

/-- Registry row for `https://archive.org` (source lines 81-90). -/
def archiveBody : PBody :=
  { emptyBody with
    ext := some "mp3"
    rx_chapters := some ⟨"<div itemprop=\"(.*?)</div>", true⟩
    rx_href := some ⟨"<link itemprop=\"associatedMedia\" href=\"([^<]*?\\.mp3)\">", true⟩
    rx_title := some ⟨"content=\"(.*?)\"", false⟩
    title_from_href := false
    search := some "https://archive.org/search.php?query=%q&and[]=mediatype%3A%22audio%22&and[]=subject%3A%22audiobook%22"
    rx_slinks := some ⟨"<a href=\"([^<]*?)\" title=\".*?\".*?data-event-click-tracking=\"GenericNonCollection|ItemTile\">", true⟩
    rx_stitles := some ⟨"<a href=\"[^<]*?\" title=\"(.*?)\".*?data-event-click-tracking=\"GenericNonCollection|ItemTile\">", true⟩
    slinks_prepend := "https://archive.org" }

/-- The `PROVIDERS` registry (source lines 54-92), in source order. -/
def PROVIDERS : List (String × PBody) :=
  [("https://fulllengthaudiobooks.com/", flaBody),
   ("https://librivox.org/", lvxBody),
   ("https://goldenaudiobooks.com/", goldenBody),
   ("https://bookaudiobooks.com/", bookBody),
   ("https://archive.org", archiveBody)]

/-- One manifest entry.  The Python manifest is a dict keyed by `basename`;
`downloaded` is the tri-state outcome (`none` = pending, `some true` =
success, `some false` = failed) and `file` the resolved local path, both
unset until the download pipeline runs. -/
structure MEntry where
  basename : String
  href : String
  title : String
  downloaded : Option Bool
  file : Option String
deriving DecidableEq

/-- Python dict assignment `manifest[basename] = v`: updating an existing key
keeps its insertion position, a new key is appended. -/
def dictInsert (m : List MEntry) (e : MEntry) : List MEntry :=
  if m.any (fun x => x.basename = e.basename) then
    m.map (fun x => if x.basename = e.basename then e else x)
  else m ++ [e]

/-- Extracted href for one candidate fragment (source lines 200-203):
`none` means the candidate is skipped (`continue`). -/
def chHref (fa : Rx → String → List String) (p : PBody) (ch : String) :
    Option String :=
  match p.rx_href with
  | none => some ch
  | some rx =>
    let h := slist (fa rx ch) 0 ""
    if h = "" then none else some h

/-- Derived chapter title for one fragment (source lines 206-211). -/
def chTitle (fa : Rx → String → List String) (p : PBody) (ch ch_href : String) :
    String :=
  if p.title_from_href then
    let t := slist (ch_href.splitOn "/") (-1) ""
    slist (t.splitOn ".") 0 ""
  else
    match p.rx_title with
    | none => ""
    | some rx => slist (fa rx ch) 0 ""

/-- One iteration of the chapter loop in `create_manifest`
(source lines 198-219); the state is (ordinal counter, manifest). -/
def chapterStep (fa : Rx → String → List String) (p : PBody)
    (st : Nat × List MEntry) (ch : String) : Nat × List MEntry :=
  match chHref fa p ch with
  | none => st
  | some ch_href =>
    let t := chTitle fa p ch ch_href
    let i := st.1 + 1
    if t = "" then
      let basename := "Part " ++ zfill (Nat.repr i) 3 ++ "." ++ p.ext.getD "unknown"
      (i, dictInsert st.2 ⟨basename, ch_href, basename, none, none⟩)
    else
      let basename := t ++ " (" ++ zfill (Nat.repr i) 3 ++ ")." ++ p.ext.getD "unknown"
      (i, dictInsert st.2 ⟨basename, ch_href, t, none, none⟩)

/-- Chapters matched by one rule (source line 196):
`re.findall(p.get('rx_chapters',''), html)`.  When `rx_chapters` is absent
Python matches the empty pattern at every position of `html`. -/
def ruleChapters (fa : Rx → String → List String) (p : PBody) (html : String) :
    List String :=
  match p.rx_chapters with
  | some rx => fa rx html
  | none => List.replicate (html.length + 1) ""

/-- The chapter-extraction loop of `create_manifest` (source lines 193-221)
over already-resolved rules, with the regex engine `fa` as collaborator. -/
def createManifestCore (fa : Rx → String → List String) (html : String)
    (patterns : List PBody) : List MEntry :=
  (patterns.foldl
    (fun st p => (ruleChapters fa p html).foldl (chapterStep fa p) st)
    (0, [])).2

/-- Python `PROVIDERS.get(key)`. -/
def lookupProvider (s : String) : Option PBody :=
  (PROVIDERS.find? (fun pb => pb.1 = s)).map (fun pb => pb.2)

/-- Alias resolution (source lines 181-182): a rule with `copy_from` is
replaced by the registry entry it names.  A `none` result is the `None`
Python would get for a missing `copy_from` target (a later crash); for this
registry it never happens. -/
def resolveBody (b : PBody) : Option PBody :=
  match b.copy_from with
  | some src => lookupProvider src
  | none => some b

/-- Python `s.startswith(pre)`, on the character lists of the strings. -/
def startswith (s pre : String) : Bool :=
  pre.data.isPrefixOf s.data

/-- Prefix matching over the registry (source lines 179-184): every resolved
rule whose URL prefix starts the input URL, in registry order. -/
def selectRules (url : String) : List (Option PBody) :=
  PROVIDERS.foldl
    (fun acc pb =>
      if startswith url pb.1 then acc ++ [resolveBody pb.2] else acc)
    []

/-- Turn a list of options into an option of a list, failing on any `none`. -/
def seqOptions {α : Type} : List (Option α) → Option (List α)
  | [] => some []
  | none :: _ => none
  | some a :: rest => (seqOptions rest).map (fun l => a :: l)

/-- `create_manifest` (source lines 177-221).  `html` stands for the body the
page fetch would return; error 1 models `sys.exit(1)` on "Provider not
supported" (raised before the fetch, so the result does not depend on
`html`); error 2 models the crash Python would hit on a missing alias
target (unreachable for this registry). -/
def create_manifest (fa : Rx → String → List String) (html : String)
    (url : String) : Except Nat (List MEntry) :=
  let patterns := selectRules url
  if patterns = [] then Except.error 1
  else
    match seqOptions patterns with
    | none => Except.error 2
    | some ps => Except.ok (createManifestCore fa html ps)

/-! ### Concrete fixtures for scenario runs -/

/-- A chapter pattern stand-in used by the concrete regex collaborators. -/
def cChapRx : Rx := ⟨"CHAP", false⟩

/-- An href pattern stand-in used by the concrete regex collaborators. -/
def cHrefRx : Rx := ⟨"HREF", false⟩

/-- A title pattern stand-in used by the concrete regex collaborators. -/
def cTitleRx : Rx := ⟨"TITLE", false⟩

/-- A concrete mp3 rule with an href pattern and no title pattern. -/
def cRule : PBody :=
  { emptyBody with
    ext := some "mp3"
    rx_chapters := some cChapRx
    rx_href := some cHrefRx }

/-- A concrete regex collaborator: the page has three fragments `A`, `B`,
`C`; fragment `B` yields no href. -/
def cFa : Rx → String → List String := fun rx s =>
  if rx = cChapRx then ["A", "B", "C"]
  else if rx = cHrefRx then
    (if s = "A" then ["http://a"] else if s = "C" then ["http://c"] else [])
  else []

/-- A concrete mp3 rule with href and title patterns. -/
def aRule : PBody :=
  { emptyBody with
    ext := some "mp3"
    rx_chapters := some cChapRx
    rx_href := some cHrefRx
    rx_title := some cTitleRx }

/-- A concrete regex collaborator for scenario A: three fragments, all with
valid hrefs, titled `Intro`, `Ch1`, `Ch2`. -/
def aFa : Rx → String → List String := fun rx s =>
  if rx = cChapRx then ["F1", "F2", "F3"]
  else if rx = cHrefRx then ["http://" ++ s]
  else if rx = cTitleRx then
    (if s = "F1" then ["Intro"] else if s = "F2" then ["Ch1"]
     else if s = "F3" then ["Ch2"] else [])
  else []

/-- Modelled from the spec's filename-derivation wording: `Part {i:03}.{ext}`
for an empty title, `{title} ({i:03}).{ext}` otherwise. -/
def specFilename (title : String) (i : Nat) (e : String) : String :=
  if title = "" then "Part " ++ zfill (Nat.repr i) 3 ++ "." ++ e
  else title ++ " (" ++ zfill (Nat.repr i) 3 ++ ")." ++ e

/-! ### Helper lemmas -/

theorem append_ne_empty_left (s t : String) (hs : s ≠ "") : s ++ t ≠ "" := by
  intro h
  apply hs
  have hd : (s ++ t).data = ("" : String).data := congrArg String.data h
  rw [String.data_append] at hd
  have : s.data = [] := (List.append_eq_nil.mp hd).1
  exact String.ext this

theorem mem_dictInsert {m : List MEntry} {x e : MEntry}
    (h : e ∈ dictInsert m x) : e ∈ m ∨ e = x := by
  unfold dictInsert at h
  split at h
  · rcases List.mem_map.mp h with ⟨y, hy, he⟩
    by_cases hb : y.basename = x.basename
    · rw [if_pos hb] at he
      right; exact he.symm
    · rw [if_neg hb] at he
      left; exact he ▸ hy
  · rcases List.mem_append.mp h with h1 | h1
    · left; exact h1
    · right; simpa using h1

theorem chapterStep_title_inv (fa : Rx → String → List String) (p : PBody)
    (st : Nat × List MEntry) (ch : String)
    (inv : ∀ e ∈ st.2, e.title ≠ "") :
    ∀ e ∈ (chapterStep fa p st ch).2, e.title ≠ "" := by
  intro e he
  rw [chapterStep] at he
  cases hh : chHref fa p ch with
  | none => rw [hh] at he; exact inv e he
  | some href =>
    rw [hh] at he
    simp only at he
    by_cases ht : chTitle fa p ch href = ""
    · rw [if_pos ht] at he
      rcases mem_dictInsert he with h' | h'
      · exact inv e h'
      · subst h'
        exact append_ne_empty_left _ _
          (append_ne_empty_left _ _ (append_ne_empty_left _ _ (by decide)))
    · rw [if_neg ht] at he
      rcases mem_dictInsert he with h' | h'
      · exact inv e h'
      · subst h'; exact ht

theorem chapters_title_inv (fa : Rx → String → List String) (p : PBody)
    (chs : List String) (st : Nat × List MEntry)
    (inv : ∀ e ∈ st.2, e.title ≠ "") :
    ∀ e ∈ (chs.foldl (chapterStep fa p) st).2, e.title ≠ "" := by
  induction chs generalizing st with
  | nil => exact inv
  | cons c rest ih => exact ih _ (chapterStep_title_inv fa p st c inv)

theorem patterns_title_inv (fa : Rx → String → List String) (html : String)
    (ps : List PBody) (st : Nat × List MEntry)
    (inv : ∀ e ∈ st.2, e.title ≠ "") :
    ∀ e ∈ (ps.foldl
        (fun st p => (ruleChapters fa p html).foldl (chapterStep fa p) st)
        st).2, e.title ≠ "" := by
  induction ps generalizing st with
  | nil => exact inv
  | cons p rest ih => exact ih _ (chapters_title_inv fa p _ st inv)

theorem selectRules_go (url : String) (l : List (String × PBody))
    (acc : List (Option PBody)) :
    l.foldl
        (fun acc pb => if startswith url pb.1 then acc ++ [resolveBody pb.2] else acc)
        acc
      = acc ++ l.filterMap
          (fun pb => if startswith url pb.1 then some (resolveBody pb.2) else none) := by
  induction l generalizing acc with
  | nil => simp
  | cons pb rest ih =>
    by_cases h : startswith url pb.1
    · simp [h, ih]
    · simp [h, ih]

/-! ### Claims C1, C2, C6, C10 -/

/-- C1 counterexample: in `create_manifest` the skip for an empty extracted
href (source line 203) happens before `i += 1` (source line 213), so on a
page with three fragments whose middle fragment has an empty href the two
surviving entries carry ordinals 1 and 2 — not 2 and 3 as the claim
states. -/
theorem c1_ordinal_counterexample :
    (createManifestCore cFa "page" [cRule]).map MEntry.basename
      = ["Part 001.mp3", "Part 002.mp3"] ∧
    ¬ (createManifestCore cFa "page" [cRule]).map MEntry.basename
      = ["Part 002.mp3", "Part 003.mp3"] := by decide

/-- C1 (amended): the ordinal counter does not increment for candidates
skipped because their extracted href is empty — such a candidate leaves the
(counter, manifest) state completely unchanged, so the surviving entries of
scenario B carry ordinals 1 and 2. -/
theorem c1_skip_leaves_state (fa : Rx → String → List String) (p : PBody)
    (rx : Rx) (st : Nat × List MEntry) (ch : String)
    (hrx : p.rx_href = some rx) (h : slist (fa rx ch) 0 "" = "") :
    chapterStep fa p st ch = st := by
  simp [chapterStep, chHref, hrx, h]

theorem c1_skip_leaves_state_witness :
    cRule.rx_href = some cHrefRx ∧ slist (cFa cHrefRx "B") 0 "" = "" ∧
    chapterStep cFa cRule (0, []) "B" = (0, []) :=
  ⟨rfl, by decide, c1_skip_leaves_state cFa cRule cHrefRx (0, []) "B" rfl (by decide)⟩

/-- C2: every candidate with a non-empty href yields the filename
`Part {i:03}.{ext}` when the derived title is empty and
`{title} ({i:03}).{ext}` otherwise (with `i` the incremented running
ordinal and `ext` the rule's default extension), and scenario A — three
valid fragments titled `Intro`, `Ch1`, `Ch2` under an mp3 rule — yields
exactly the filenames `Intro (001).mp3`, `Ch1 (002).mp3`, `Ch2 (003).mp3`. -/
theorem c2_filename_derivation :
    (∀ (fa : Rx → String → List String) (p : PBody) (st : Nat × List MEntry)
        (ch h : String), chHref fa p ch = some h →
      chapterStep fa p st ch =
        (st.1 + 1,
         dictInsert st.2
           ⟨specFilename (chTitle fa p ch h) (st.1 + 1) (p.ext.getD "unknown"),
            h,
            if chTitle fa p ch h = ""
              then specFilename (chTitle fa p ch h) (st.1 + 1) (p.ext.getD "unknown")
              else chTitle fa p ch h,
            none, none⟩)) ∧
    (createManifestCore aFa "page" [aRule]).map MEntry.basename
      = ["Intro (001).mp3", "Ch1 (002).mp3", "Ch2 (003).mp3"] := by
  constructor
  · intro fa p st ch h hh
    by_cases ht : chTitle fa p ch h = "" <;>
      simp [chapterStep, hh, specFilename, ht]
  · decide

theorem c2_filename_derivation_witness :
    chHref aFa aRule "F1" = some "http://F1" ∧
    chapterStep aFa aRule (0, []) "F1" =
      (1,
       dictInsert []
         ⟨specFilename (chTitle aFa aRule "F1" "http://F1") 1 (aRule.ext.getD "unknown"),
          "http://F1",
          if chTitle aFa aRule "F1" "http://F1" = ""
            then specFilename (chTitle aFa aRule "F1" "http://F1") 1 (aRule.ext.getD "unknown")
            else chTitle aFa aRule "F1" "http://F1",
          none, none⟩) :=
  ⟨by decide,
   c2_filename_derivation.1 aFa aRule (0, []) "F1" "http://F1" (by decide)⟩

/-- C6: provider matching selects every registry rule whose URL prefix
starts the input URL, alias-resolved via `copy_from`, in registry iteration
order; and when no rule matches, `create_manifest` fails with exit code 1
whatever the page body would have been (so before any page fetch matters). -/
theorem c6_provider_matching :
    (∀ url : String,
      selectRules url
        = PROVIDERS.filterMap
            (fun pb => if startswith url pb.1 then some (resolveBody pb.2) else none)) ∧
    (∀ (url : String) (fa : Rx → String → List String) (html : String),
      selectRules url = [] → create_manifest fa html url = Except.error 1) := by
  constructor
  · intro url
    rw [selectRules, selectRules_go]
    simp
  · intro url fa html h
    simp [create_manifest, h]

theorem c6_provider_matching_witness :
    selectRules "http://example.org/x" = [] ∧
    create_manifest (fun _ _ => []) "" "http://example.org/x" = Except.error 1 :=
  ⟨by decide,
   c6_provider_matching.2 "http://example.org/x" (fun _ _ => []) "" (by decide)⟩

/-- C10: a candidate with an empty derived title stores the generated
filename `Part {i:03}.{ext}` as both the entry's key and its title field,
and consequently no entry of any built manifest has an empty title. -/
theorem c10_empty_title_fallback :
    (∀ (fa : Rx → String → List String) (p : PBody) (st : Nat × List MEntry)
        (ch h : String), chHref fa p ch = some h → chTitle fa p ch h = "" →
      chapterStep fa p st ch =
        (st.1 + 1,
         dictInsert st.2
           ⟨"Part " ++ zfill (Nat.repr (st.1 + 1)) 3 ++ "." ++ p.ext.getD "unknown",
            h,
            "Part " ++ zfill (Nat.repr (st.1 + 1)) 3 ++ "." ++ p.ext.getD "unknown",
            none, none⟩)) ∧
    (∀ (fa : Rx → String → List String) (html : String) (ps : List PBody)
        (e : MEntry), e ∈ createManifestCore fa html ps → e.title ≠ "") := by
  constructor
  · intro fa p st ch h hh ht
    simp [chapterStep, hh, ht]
  · intro fa html ps e he
    exact patterns_title_inv fa html ps (0, []) (by simp) e he

theorem c10_empty_title_fallback_witness :
    chHref cFa cRule "A" = some "http://a" ∧
    chTitle cFa cRule "A" "http://a" = "" ∧
    chapterStep cFa cRule (0, []) "A" =
      (1,
       dictInsert []
         ⟨"Part " ++ zfill (Nat.repr 1) 3 ++ "." ++ cRule.ext.getD "unknown",
          "http://a",
          "Part " ++ zfill (Nat.repr 1) 3 ++ "." ++ cRule.ext.getD "unknown",
          none, none⟩) :=
  ⟨by decide, by decide,
   c10_empty_title_fallback.1 cFa cRule (0, []) "A" "http://a" (by decide) (by decide)⟩

/-! ### Download pipeline -/

/-- A filesystem node: a regular file with its content, or a directory. -/
inductive FSNode : Type
  | file (content : String)
  | dir
deriving DecidableEq

/-- The filesystem collaborator, as an association list from paths to nodes. -/
abbrev FS : Type := List (String × FSNode)

/-- Python `os.path.isfile`. -/
def isfile (fs : FS) (path : String) : Bool :=
  match fs.find? (fun pn => pn.1 = path) with
  | some pn => match pn.2 with
    | FSNode.file _ => true
    | FSNode.dir => false
  | none => false

/-- Python `os.path.isdir`. -/
def isdir (fs : FS) (path : String) : Bool :=
  match fs.find? (fun pn => pn.1 = path) with
  | some pn => pn.2 = FSNode.dir
  | none => false

/-- `open(file,'wb').write(...)`: overwrite the node at `path` or add one. -/
def fsWrite (fs : FS) (path : String) (content : String) : FS :=
  if fs.any (fun pn => pn.1 = path) then
    fs.map (fun pn => if pn.1 = path then (path, FSNode.file content) else pn)
  else fs ++ [(path, FSNode.file content)]

/-- Observable side effects of the download pipeline: a network fetch
attempt, a file write, or a printed dry-run plan line
(`{file}:  <--- {href}`, source line 251). -/
inductive Ev : Type
  | fetch (url : String)
  | write (path : String) (content : String)
  | plan (path : String) (url : String)
deriving DecidableEq

/-- One iteration of the loop in `download_ress` (source lines 238-271).
The state is (processed entries, filesystem, effect events so far); `net`
is the network collaborator, `none` meaning the fetch raises (the caught
`except` branch, source lines 270-271). -/
def dlStep (net : String → Option String) (output_dir : String)
    (dry_run : Bool) (st : List MEntry × FS × List Ev) (e : MEntry) :
    List MEntry × FS × List Ev :=
  let entries := st.1
  let fs := st.2.1
  let evs := st.2.2
  let e := { e with downloaded := some false }
  if e.href = "" then (entries ++ [e], fs, evs)
  else
    let file := output_dir ++ "/" ++ e.basename
    let e := { e with file := some file }
    if dry_run then (entries ++ [e], fs, evs ++ [Ev.plan file e.href])
    else if isfile fs file || isdir fs file then (entries ++ [e], fs, evs)
    else
      match net e.href with
      | some content =>
        (entries ++ [{ e with downloaded := some true }],
         fsWrite fs file content,
         evs ++ [Ev.fetch e.href, Ev.write file content])
      | none => (entries ++ [e], fs, evs ++ [Ev.fetch e.href])

/-- `download_ress` (source lines 229-271): error 1 models `sys.exit(1)` on
a missing output directory (source lines 233-235). -/
def download_ress (net : String → Option String) (manifest : List MEntry)
    (output_dir : String) (dry_run : Bool) (fs : FS) :
    Except Nat (List MEntry × FS × List Ev) :=
  if isdir fs output_dir then
    Except.ok (manifest.foldl (dlStep net output_dir dry_run) ([], fs, []))
  else Except.error 1

/-- What the dry run records for one entry: outcome marked failed, local
path resolved when the href is non-empty. -/
def dryMark (output_dir : String) (e : MEntry) : MEntry :=
  if e.href = "" then { e with downloaded := some false }
  else
    { e with
      downloaded := some false
      file := some (output_dir ++ "/" ++ e.basename) }

/-- The planned (path, sourceURL) line the dry run prints for one entry:
none when the href is empty. -/
def dryPlan (output_dir : String) (e : MEntry) : Option Ev :=
  if e.href = "" then none
  else some (Ev.plan (output_dir ++ "/" ++ e.basename) e.href)

theorem dry_run_go (net : String → Option String) (output_dir : String)
    (l : List MEntry) (acc : List MEntry) (fs : FS) (evs : List Ev) :
    l.foldl (dlStep net output_dir true) (acc, fs, evs)
      = (acc ++ l.map (dryMark output_dir), fs,
         evs ++ l.filterMap (dryPlan output_dir)) := by
  induction l generalizing acc evs with
  | nil => simp
  | cons e rest ih =>
    by_cases h : e.href = ""
    · simp [dlStep, h, dryMark, dryPlan, ih]
    · simp [dlStep, h, dryMark, dryPlan, ih]

/-! ### Claims C7, C8 -/

/-- C7: in non-dry-run mode, an entry whose target path already exists as a
file or directory is skipped: the step performs no fetch and no write (no
new events), leaves the filesystem — hence the existing file's bytes —
unchanged, leaves the entry marked failed (`some false`, not success), and
the fold continues with the next entry. -/
theorem c7_existing_file_skip (net : String → Option String)
    (output_dir : String) (st : List MEntry × FS × List Ev) (e : MEntry)
    (hhref : e.href ≠ "")
    (hex : isfile st.2.1 (output_dir ++ "/" ++ e.basename) = true
           ∨ isdir st.2.1 (output_dir ++ "/" ++ e.basename) = true) :
    dlStep net output_dir false st e =
      (st.1 ++ [{ e with
                  downloaded := some false
                  file := some (output_dir ++ "/" ++ e.basename) }],
       st.2.1, st.2.2) := by
  have hb : (isfile st.2.1 (output_dir ++ "/" ++ e.basename)
      || isdir st.2.1 (output_dir ++ "/" ++ e.basename)) = true := by
    rcases hex with h | h <;> simp [h]
  simp [dlStep, hhref, hb]

/-- A concrete manifest entry whose target already exists on disk. -/
def dlE0 : MEntry := ⟨"f.mp3", "http://x", "T", none, none⟩

/-- A concrete filesystem with the output directory and a pre-existing
target file. -/
def dlFs0 : FS := [("out", FSNode.dir), ("out/f.mp3", FSNode.file "OLD")]

theorem c7_existing_file_skip_witness :
    dlE0.href ≠ "" ∧
    isfile dlFs0 ("out" ++ "/" ++ dlE0.basename) = true ∧
    dlStep (fun _ => some "NEW") "out" false ([], dlFs0, []) dlE0 =
      ([{ dlE0 with
          downloaded := some false
          file := some ("out" ++ "/" ++ dlE0.basename) }],
       dlFs0, []) :=
  ⟨by decide, by decide,
   c7_existing_file_skip (fun _ => some "NEW") "out" ([], dlFs0, []) dlE0
     (by decide) (Or.inl (by decide))⟩

/-- C8: in dry-run mode (with an existing output directory) the pipeline
performs no fetch and no write — the filesystem comes back unchanged and
the only events are plan lines — and reports exactly one planned
(path, sourceURL) pair per entry with a non-empty href. -/
theorem c8_dry_run (net : String → Option String) (manifest : List MEntry)
    (output_dir : String) (fs : FS) (hdir : isdir fs output_dir = true) :
    download_ress net manifest output_dir true fs =
      Except.ok (manifest.map (dryMark output_dir), fs,
                 manifest.filterMap (dryPlan output_dir)) := by
  simp [download_ress, hdir, dry_run_go]

/-- Two concrete manifest entries with non-empty hrefs. -/
def dlE1 : MEntry := ⟨"a.mp3", "http://a", "A", none, none⟩

/-- A second concrete manifest entry with a non-empty href. -/
def dlE2 : MEntry := ⟨"b.mp3", "http://b", "B", none, none⟩

theorem c8_dry_run_witness :
    isdir [("out", FSNode.dir)] "out" = true ∧
    download_ress (fun _ => some "N") [dlE1, dlE2] "out" true
        [("out", FSNode.dir)]
      = Except.ok
          ([dryMark "out" dlE1, dryMark "out" dlE2],
           [("out", FSNode.dir)],
           [Ev.plan "out/a.mp3" "http://a", Ev.plan "out/b.mp3" "http://b"]) :=
  ⟨by decide,
   (c8_dry_run (fun _ => some "N") [dlE1, dlE2] "out"
      [("out", FSNode.dir)] (by decide)).trans (by rfl)⟩

/-! ### Tag rewriter -/

/-- Python `needle in hay` on strings: substring containment, as infixity of
the character lists. -/
def pyIn (needle hay : String) : Prop :=
  needle.data <:+: hay.data

instance (n h : String) : Decidable (pyIn n h) :=
  inferInstanceAs (Decidable (n.data <:+: h.data))

/-- The value of the title tag after one `retag` pass over a file whose
current title tag is `t`, against an entry title `e` (source lines
322-325): unchanged when `e` is already a substring, otherwise the
space-separated concatenation `{t} {e}`. -/
def retagTitle (t e : String) : String :=
  if pyIn e t then t else t ++ " " ++ e

/-- Whether the pass writes the tag and calls `f.save()`
(source lines 323-326). -/
def retagSaves (t e : String) : Bool :=
  if pyIn e t then false else true

/-- One iteration of the `retag` loop (source lines 316-330) against the
`music_tag` collaborator `loadT` (`loadT path` is the loaded title tag;
`none` models `load_file` raising, e.g. on the `None` path of an entry
whose local path was never set — the exception is caught and logged).  The
state records every `load_file` argument and every (path, new title) save
performed. -/
def retagStep (loadT : Option String → Option String)
    (st : List (Option String) × List (Option String × String)) (e : MEntry) :
    List (Option String) × List (Option String × String) :=
  let loads := st.1 ++ [e.file]
  match loadT e.file with
  | none => (loads, st.2)
  | some title =>
    if pyIn e.title title then (loads, st.2)
    else (loads, st.2 ++ [(e.file, title ++ " " ++ e.title)])

/-- `retag` (source lines 314-330): the loop over all manifest entries. -/
def retag (loadT : Option String → Option String) (manifest : List MEntry) :
    List (Option String) × List (Option String × String) :=
  manifest.foldl (retagStep loadT) ([], [])

theorem pyIn_append_right (t e : String) : pyIn e (t ++ " " ++ e) := by
  unfold pyIn
  rw [String.data_append]
  exact (List.suffix_append (t ++ " ").data e.data).isInfix

theorem retag_go (loadT : Option String → Option String) (l : List MEntry)
    (loads : List (Option String))
    (saves : List (Option String × String)) :
    (l.foldl (retagStep loadT) (loads, saves)).1
      = loads ++ l.map (fun e => e.file) := by
  induction l generalizing loads saves with
  | nil => simp
  | cons e rest ih =>
    show ((retagStep loadT (loads, saves) e) |>
        (rest.foldl (retagStep loadT) ·)).1 = _
    cases h : loadT e.file with
    | none => simp [retagStep, h, ih]
    | some title =>
      by_cases ht : pyIn e.title title
      · simp [retagStep, h, ht, ih]
      · simp [retagStep, h, ht, ih]

/-! ### Claims C4, C5 -/

/-- C4: `retag` is idempotent on a file's title tag: when the entry title
is already a substring of the tag the pass leaves the tag unchanged and
performs no save, and a second pass over the result of a first pass always
leaves the tag unchanged and never saves. -/
theorem c4_retag_idempotent (t e : String) :
    (pyIn e t → retagTitle t e = t ∧ retagSaves t e = false) ∧
    retagTitle (retagTitle t e) e = retagTitle t e ∧
    retagSaves (retagTitle t e) e = false := by
  refine ⟨fun h => ?_, ?_, ?_⟩
  · simp [retagTitle, retagSaves, h]
  · by_cases h : pyIn e t
    · simp [retagTitle, h]
    · simp [retagTitle, h, pyIn_append_right]
  · by_cases h : pyIn e t
    · simp [retagTitle, retagSaves, h]
    · simp [retagTitle, retagSaves, h, pyIn_append_right]

theorem c4_retag_idempotent_witness :
    pyIn "b" "abc" ∧ retagTitle "abc" "b" = "abc" ∧
    retagSaves "abc" "b" = false :=
  ⟨by decide, ((c4_retag_idempotent "abc" "b").1 (by decide)).1,
   ((c4_retag_idempotent "abc" "b").1 (by decide)).2⟩

/-- C5 counterexample: `retag` invokes the tag collaborator's load for
every manifest entry, including one whose downloaded outcome is failed
(`some false`) — the claim that such an entry is never loaded is false. -/
theorem c5_loads_counterexample :
    (retag (fun _ => some "old")
        [⟨"f.mp3", "http://x", "T", some false, some "out/f.mp3"⟩]).1
      = [some "out/f.mp3"] ∧
    ¬ (retag (fun _ => some "old")
        [⟨"f.mp3", "http://x", "T", some false, some "out/f.mp3"⟩]).1
      = [] := by
  have h1 : (retag (fun _ => some "old")
      [⟨"f.mp3", "http://x", "T", some false, some "out/f.mp3"⟩]).1
      = [some "out/f.mp3"] := rfl
  exact ⟨h1, by rw [h1]; simp⟩

/-- C5 (amended): `retag` invokes the tag collaborator's load operation for
every manifest entry, in manifest order, regardless of the entry's
downloaded outcome; for an entry whose local path was never set the load is
still attempted with the unset (`none`) path, fails, and is caught. -/
theorem c5_retag_loads_all (loadT : Option String → Option String)
    (manifest : List MEntry) :
    (retag loadT manifest).1 = manifest.map (fun e => e.file) := by
  unfold retag
  rw [retag_go]
  simp

/-! ### Search engine -/

/-- `prepare_phrase` (source lines 133-136): spaces and path separators
replaced by `+`. -/
def prepare_phrase (phrase : String) : String :=
  (phrase.replace " " "+").replace "/" "+"

/-- The inner `for i,l in enumerate(links)` loop of `search` (source lines
157-162): skip empty links, prepend the provider prefix, pair with the
title at the same index (`<ERROR>` marker when missing), clean the title
with the `re.sub('&#.*?;','',t)` collaborator `strip`. -/
def searchInner (prepend : String) (strip : String → String)
    (titles : List String) : Nat → List String → List (String × String)
  | _, [] => []
  | i, l :: ls =>
    if l = "" then searchInner prepend strip titles (i + 1) ls
    else (prepend ++ l, strip (slist titles (i : Int) "<ERROR>")) ::
      searchInner prepend strip titles (i + 1) ls

/-- The provider loop of `search` (source lines 143-162): `net` is the page
fetcher (`none` = fetch failure, which `download_html` turns into
`sys.exit(1)`, modelled as error 1), `fa` the `re.findall` collaborator. -/
def searchGo (net : String → Option String) (fa : Rx → String → List String)
    (strip : String → String) (phrase : String) :
    List (String × PBody) → List (String × String) →
      Except Nat (List (String × String))
  | [], results => Except.ok results
  | pb :: rest, results =>
    match pb.2.search, pb.2.rx_slinks, pb.2.rx_stitles with
    | some stemplate, some rl, some rt =>
      match net (stemplate.replace "%q" phrase) with
      | none => Except.error 1
      | some html =>
        searchGo net fa strip phrase rest
          (results ++
            searchInner pb.2.slinks_prepend strip (fa rt html) 0 (fa rl html))
    | _, _, _ => searchGo net fa strip phrase rest results

/-- `search` (source lines 138-170). -/
def search (net : String → Option String) (fa : Rx → String → List String)
    (strip : String → String) (phrase : String) :
    Except Nat (List (String × String)) :=
  searchGo net fa strip (prepare_phrase phrase) PROVIDERS []

/-- Modelled from the spec's wording of the search contract: per provider
exposing a full search configuration, pair link `k` with title `k`
positionally, default a missing title to the error marker, skip empty
links, prepend the provider's link prefix, clean each kept title; the
per-provider lists are concatenated in registry order with no ranking or
dedup.  `h` gives the fetched search page per URL. -/
def specSearchResults (fa : Rx → String → List String)
    (strip : String → String) (h : String → String) (phrase : String) :
    List (String × String) :=
  PROVIDERS.flatMap (fun pb =>
    match pb.2.search, pb.2.rx_slinks, pb.2.rx_stitles with
    | some stemplate, some rl, some rt =>
      let html := h (stemplate.replace "%q" phrase)
      (fa rl html).enum.filterMap (fun kl =>
        if kl.2 = "" then none
        else some (pb.2.slinks_prepend ++ kl.2,
                   strip ((fa rt html).getD kl.1 "<ERROR>")))
    | _, _, _ => [])

theorem slist_nat {α : Type} (l : List α) (k : Nat) (d : α) :
    slist l (k : Int) d = l.getD k d := by
  simp only [slist]
  rw [if_neg (show ¬ ((k : Int) < 0) by omega),
    if_pos (show (0 : Int) ≤ (k : Int) by omega)]
  simp

theorem searchInner_eq (prepend : String) (strip : String → String)
    (titles : List String) (i : Nat) (links : List String) :
    searchInner prepend strip titles i links
      = (links.enumFrom i).filterMap (fun kl =>
          if kl.2 = "" then none
          else some (prepend ++ kl.2, strip (titles.getD kl.1 "<ERROR>"))) := by
  induction links generalizing i with
  | nil => rfl
  | cons l ls ih =>
    by_cases h : l = "" <;>
      simp [searchInner, h, ih, List.enumFrom_cons, slist_nat]

theorem searchGo_eq (net : String → Option String)
    (fa : Rx → String → List String) (strip : String → String)
    (h : String → String) (phrase : String)
    (hnet : ∀ u, net u = some (h u)) (l : List (String × PBody))
    (acc : List (String × String)) :
    searchGo net fa strip phrase l acc
      = Except.ok (acc ++ l.flatMap (fun pb =>
          match pb.2.search, pb.2.rx_slinks, pb.2.rx_stitles with
          | some stemplate, some rl, some rt =>
            (fa rl (h (stemplate.replace "%q" phrase))).enum.filterMap
              (fun kl =>
                if kl.2 = "" then none
                else some (pb.2.slinks_prepend ++ kl.2,
                  strip ((fa rt (h (stemplate.replace "%q" phrase))).getD
                    kl.1 "<ERROR>")))
          | _, _, _ => [])) := by
  induction l generalizing acc with
  | nil => simp [searchGo]
  | cons pb rest ih =>
    cases hs : pb.2.search with
    | none =>
      simp [searchGo, hs, ih, List.flatMap_cons]
    | some stemplate =>
      cases hl : pb.2.rx_slinks with
      | none => simp [searchGo, hs, hl, ih, List.flatMap_cons]
      | some rl =>
        cases ht : pb.2.rx_stitles with
        | none => simp [searchGo, hs, hl, ht, ih, List.flatMap_cons]
        | some rt =>
          simp [searchGo, hs, hl, ht, hnet, ih, List.flatMap_cons,
            searchInner_eq, List.enum]

/-! ### Claim C9 -/

/-- C9: when every search-page fetch succeeds (`net u = some (h u)`), the
search function returns exactly the spec-shaped aggregation: per provider
exposing a search template, link `k` paired with title `k` by position,
missing titles defaulting to the `<ERROR>` marker, empty links skipped,
the provider prefix prepended, titles cleaned, and per-provider result
lists concatenated in registry order with no ranking or dedup. -/
theorem c9_search_characterization (net : String → Option String)
    (fa : Rx → String → List String) (strip : String → String)
    (h : String → String) (phrase : String)
    (hnet : ∀ u, net u = some (h u)) :
    search net fa strip phrase
      = Except.ok (specSearchResults fa strip h (prepare_phrase phrase)) := by
  unfold search specSearchResults
  rw [searchGo_eq net fa strip h (prepare_phrase phrase) hnet]
  simp

theorem c9_search_characterization_witness :
    search (fun u => some ("<x>" ++ u)) (fun _ _ => []) (fun t => t) "a b"
      = Except.ok (specSearchResults (fun _ _ => []) (fun t => t)
          (fun u => "<x>" ++ u) (prepare_phrase "a b")) :=
  c9_search_characterization (fun u => some ("<x>" ++ u)) (fun _ _ => [])
    (fun t => t) (fun u => "<x>" ++ u) "a b" (fun _ => rfl)

/-! ### Playlist writer -/

/-- The accumulator loop building the `pls` text (source lines 287-291):
each entry appends `File{i}={basename}\nTitle{i}={title}\n\n`. -/
def plsGo (pls : String) (i : Nat) : List MEntry → String
  | [] => pls
  | e :: rest =>
    plsGo
      (pls ++ ("File" ++ Nat.repr i ++ "=" ++ e.basename ++ "\n" ++
        "Title" ++ Nat.repr i ++ "=" ++ e.title ++ "\n\n"))
      (i + 1) rest

/-- The `pls`-format playlist text `gen_playlist` builds
(source lines 284-291), before any file handling. -/
def gen_playlist_pls (manifest : List MEntry) : String :=
  plsGo "[playlist]\n\n" 1 manifest

/-- Split a list at every occurrence of a separator element. -/
def splitSep {α : Type} [DecidableEq α] (sep : α) : List α → List (List α)
  | [] => [[]]
  | x :: xs =>
    if x = sep then [] :: splitSep sep xs
    else
      match splitSep sep xs with
      | [] => [[x]]
      | y :: ys => (x :: y) :: ys

/-- Strip an expected leading character sequence, or fail. -/
def stripPre : List Char → List Char → Option (List Char)
  | [], ys => some ys
  | _ :: _, [] => none
  | x :: xs, y :: ys => if x = y then stripPre xs ys else none

/-- Parse the blank-line-separated blocks after the `[playlist]` header:
block `n` (1-based) must be the consecutive line pair `File{n}={filename}`,
`Title{n}={title}`. -/
def parseBlocks : Nat → List (List (List Char)) → Option (List (String × String))
  | _, [] => some []
  | n, b :: rest =>
    match b with
    | [fl, tl] =>
      match stripPre ("File" ++ Nat.repr n ++ "=").data fl,
            stripPre ("Title" ++ Nat.repr n ++ "=").data tl with
      | some f, some t =>
        (parseBlocks (n + 1) rest).map
          (fun ps => (String.mk f, String.mk t) :: ps)
      | _, _ => none
    | _ => none

/-- Modelled from the spec's round-trip wording: parse a `pls` playlist text
back into its (filename, title) pairs by splitting the text into lines,
splitting the lines into blank-line-separated blocks, and reading each
block as a `File{n}`/`Title{n}` pair. -/
def parsePls (s : String) : Option (List (String × String)) :=
  let lines := splitSep '\n' s.data
  let blocks := (splitSep ([] : List Char) lines).filter (fun b => b ≠ [])
  match blocks with
  | hdr :: rest =>
    if hdr = ["[playlist]".data] then parseBlocks 1 rest else none
  | [] => none

/-- The non-accumulator form of the `pls` body text. -/
def plsBody : Nat → List MEntry → String
  | _, [] => ""
  | i, e :: rest =>
    "File" ++ Nat.repr i ++ "=" ++ e.basename ++ "\n" ++ "Title" ++
      Nat.repr i ++ "=" ++ e.title ++ "\n\n" ++ plsBody (i + 1) rest

/-- The character-level decomposition of the `pls` body text. -/
def bodyChars : Nat → List MEntry → List Char
  | _, [] => []
  | i, e :: rest =>
    ("File" ++ Nat.repr i ++ "=").data ++ e.basename.data ++ '\n' ::
      (("Title" ++ Nat.repr i ++ "=").data ++ e.title.data ++ '\n' :: '\n' ::
        bodyChars (i + 1) rest)

/-- Lines of the `pls` body: file line, title line, blank, per entry. -/
def blockLines : Nat → List MEntry → List (List Char)
  | _, [] => [[]]
  | i, e :: rest =>
    (("File" ++ Nat.repr i ++ "=").data ++ e.basename.data) ::
      (("Title" ++ Nat.repr i ++ "=").data ++ e.title.data) :: [] ::
        blockLines (i + 1) rest

/-- Blank-line-separated groups of the `pls` body lines, trailing empties
included. -/
def blockGroups : Nat → List MEntry → List (List (List Char))
  | _, [] => [[], []]
  | i, e :: rest =>
    [("File" ++ Nat.repr i ++ "=").data ++ e.basename.data,
     ("Title" ++ Nat.repr i ++ "=").data ++ e.title.data] ::
      blockGroups (i + 1) rest

/-- The proper (nonempty) blocks of the `pls` body. -/
def blocksOnly : Nat → List MEntry → List (List (List Char))
  | _, [] => []
  | i, e :: rest =>
    [("File" ++ Nat.repr i ++ "=").data ++ e.basename.data,
     ("Title" ++ Nat.repr i ++ "=").data ++ e.title.data] ::
      blocksOnly (i + 1) rest

theorem str_append_assoc (a b c : String) : a ++ b ++ c = a ++ (b ++ c) :=
  String.ext (by simp [String.data_append, List.append_assoc])

theorem str_append_empty (a : String) : a ++ "" = a :=
  String.ext (by rw [String.data_append]; exact List.append_nil _)

theorem plsGo_eq (es : List MEntry) : ∀ (pls : String) (i : Nat),
    plsGo pls i es = pls ++ plsBody i es := by
  induction es with
  | nil => intro pls i; rw [plsGo, plsBody, str_append_empty]
  | cons e rest ih =>
    intro pls i
    rw [plsGo, plsBody, ih, str_append_assoc]

theorem data_plsBody (es : List MEntry) : ∀ i : Nat,
    (plsBody i es).data = bodyChars i es := by
  induction es with
  | nil => intro i; rfl
  | cons e rest ih =>
    intro i
    rw [plsBody, bodyChars]
    simp only [String.data_append, ih]
    simp [List.append_assoc]

theorem splitSep_cons_self {α : Type} [DecidableEq α] (sep : α)
    (xs : List α) : splitSep sep (sep :: xs) = [] :: splitSep sep xs := by
  rw [splitSep, if_pos rfl]

theorem splitSep_ne_nil {α : Type} [DecidableEq α] (sep : α)
    (xs : List α) : splitSep sep xs ≠ [] := by
  cases xs with
  | nil => simp [splitSep]
  | cons x xs =>
    rw [splitSep]
    by_cases h : x = sep
    · simp [h]
    · rw [if_neg h]
      cases splitSep sep xs <;> simp

theorem splitSep_append {α : Type} [DecidableEq α] (sep : α) (a : List α)
    (ha : sep ∉ a) (b : List α) :
    splitSep sep (a ++ sep :: b) = a :: splitSep sep b := by
  induction a with
  | nil => exact splitSep_cons_self sep b
  | cons x a ih =>
    have hx : ¬ x = sep := fun h => ha (h ▸ List.mem_cons_self x a)
    have ha' : sep ∉ a := fun h => ha (List.mem_cons_of_mem x h)
    rw [List.cons_append, splitSep, if_neg hx, ih ha']

theorem stripPre_append (xs ys : List Char) :
    stripPre xs (xs ++ ys) = some ys := by
  induction xs with
  | nil => rfl
  | cons x xs ih => rw [List.cons_append, stripPre, if_pos rfl, ih]

theorem digitChar_ne_nl (n : Nat) : Nat.digitChar n ≠ '\n' := by
  rcases Nat.lt_or_ge n 16 with h | h
  · interval_cases n <;> decide
  · have h0 : n ≠ 0 := by omega
    have h1 : n ≠ 1 := by omega
    have h2 : n ≠ 2 := by omega
    have h3 : n ≠ 3 := by omega
    have h4 : n ≠ 4 := by omega
    have h5 : n ≠ 5 := by omega
    have h6 : n ≠ 6 := by omega
    have h7 : n ≠ 7 := by omega
    have h8 : n ≠ 8 := by omega
    have h9 : n ≠ 9 := by omega
    have ha : n ≠ 0xa := by omega
    have hb : n ≠ 0xb := by omega
    have hc : n ≠ 0xc := by omega
    have hd : n ≠ 0xd := by omega
    have he : n ≠ 0xe := by omega
    have hf : n ≠ 0xf := by omega
    unfold Nat.digitChar
    rw [if_neg h0, if_neg h1, if_neg h2, if_neg h3, if_neg h4, if_neg h5,
      if_neg h6, if_neg h7, if_neg h8, if_neg h9, if_neg ha, if_neg hb,
      if_neg hc, if_neg hd, if_neg he, if_neg hf]
    decide

theorem toDigitsCore_nl (fuel : Nat) : ∀ (n : Nat) (ds : List Char),
    '\n' ∉ ds → '\n' ∉ Nat.toDigitsCore 10 fuel n ds := by
  induction fuel with
  | zero => intro n ds h; simpa [Nat.toDigitsCore] using h
  | succ fuel ih =>
    intro n ds h
    have hcons : '\n' ∉ Nat.digitChar (n % 10) :: ds := by
      intro hm
      rcases List.mem_cons.mp hm with he | hm2
      · exact digitChar_ne_nl _ he.symm
      · exact h hm2
    simp only [Nat.toDigitsCore]
    by_cases h10 : n / 10 = 0
    · simpa [h10] using hcons
    · simpa [h10] using ih (n / 10) _ hcons

theorem repr_no_nl (n : Nat) : '\n' ∉ (Nat.repr n).data :=
  toDigitsCore_nl (n + 1) n [] (by simp)

theorem no_nl_line (pre tail : String) (s : List Char)
    (hpre : '\n' ∉ pre.data) (hs : '\n' ∉ s) (n : Nat)
    (htail : '\n' ∉ tail.data) :
    '\n' ∉ (pre ++ Nat.repr n ++ tail).data ++ s := by
  intro h
  rcases List.mem_append.mp h with h1 | h1
  · rw [String.data_append, String.data_append] at h1
    rcases List.mem_append.mp h1 with h2 | h2
    · rcases List.mem_append.mp h2 with h3 | h3
      · exact hpre h3
      · exact repr_no_nl n h3
    · exact htail h2
  · exact hs h1

theorem line_ne_nil (pre : String) (n : Nat) (s : List Char) :
    (pre ++ Nat.repr n ++ "=").data ++ s ≠ [] := by
  rw [String.data_append]
  intro h
  rcases List.append_eq_nil.mp h with ⟨h1, _⟩
  rcases List.append_eq_nil.mp h1 with ⟨_, h2⟩
  exact (by decide : ("=" : String).data ≠ []) h2

theorem splitSep_nl_bodyChars (es : List MEntry)
    (hn : ∀ e ∈ es, '\n' ∉ e.basename.data ∧ '\n' ∉ e.title.data) :
    ∀ i : Nat, splitSep '\n' (bodyChars i es) = blockLines i es := by
  induction es with
  | nil => intro i; rfl
  | cons e rest ih =>
    intro i
    have he := hn e (List.mem_cons_self e rest)
    have hrest : ∀ e ∈ rest, '\n' ∉ e.basename.data ∧ '\n' ∉ e.title.data :=
      fun x hx => hn x (List.mem_cons_of_mem e hx)
    rw [bodyChars, blockLines]
    rw [show ("File" ++ Nat.repr i ++ "=").data ++ e.basename.data ++ '\n' ::
        (("Title" ++ Nat.repr i ++ "=").data ++ e.title.data ++ '\n' :: '\n' ::
          bodyChars (i + 1) rest)
      = (("File" ++ Nat.repr i ++ "=").data ++ e.basename.data) ++ '\n' ::
        ((("Title" ++ Nat.repr i ++ "=").data ++ e.title.data) ++ '\n' :: '\n' ::
          bodyChars (i + 1) rest) by simp [List.append_assoc]]
    rw [splitSep_append '\n' _ (no_nl_line "File" "=" e.basename.data
      (by decide) he.1 i (by decide))]
    rw [splitSep_append '\n' _ (no_nl_line "Title" "=" e.title.data
      (by decide) he.2 i (by decide))]
    rw [splitSep_cons_self, ih hrest]

theorem splitSep_two (fl tl : List Char) (hfl : fl ≠ []) (htl : tl ≠ [])
    (L : List (List Char)) :
    splitSep ([] : List Char) (fl :: tl :: [] :: L)
      = [fl, tl] :: splitSep ([] : List Char) L := by
  have ha : ([] : List Char) ∉ [fl, tl] := by
    intro hm
    rcases List.mem_cons.mp hm with h | h
    · exact hfl h.symm
    · rcases List.mem_cons.mp h with h' | h'
      · exact htl h'.symm
      · simp at h'
  exact splitSep_append ([] : List Char) [fl, tl] ha L

theorem splitSep_blockLines (es : List MEntry) : ∀ i : Nat,
    splitSep ([] : List Char) (blockLines i es) = blockGroups i es := by
  induction es with
  | nil =>
    intro i
    rw [blockLines, blockGroups, splitSep_cons_self]
    rfl
  | cons e rest ih =>
    intro i
    rw [blockLines, blockGroups,
      splitSep_two _ _ (line_ne_nil "File" i e.basename.data)
        (line_ne_nil "Title" i e.title.data), ih]

theorem filter_blockGroups (es : List MEntry) : ∀ i : Nat,
    (blockGroups i es).filter (fun b => b ≠ []) = blocksOnly i es := by
  induction es with
  | nil => intro i; rfl
  | cons e rest ih =>
    intro i
    rw [blockGroups, blocksOnly, List.filter_cons_of_pos (by simp), ih]

theorem mk_data (s : String) : String.mk s.data = s := rfl

theorem parseBlocks_blocksOnly (es : List MEntry) : ∀ i : Nat,
    parseBlocks i (blocksOnly i es)
      = some (es.map (fun e => (e.basename, e.title))) := by
  induction es with
  | nil => intro i; rfl
  | cons e rest ih =>
    intro i
    simp only [blocksOnly, parseBlocks, stripPre_append, ih, List.map_cons,
      mk_data]
    rfl

theorem gen_playlist_data (m : List MEntry) :
    (gen_playlist_pls m).data
      = "[playlist]".data ++ '\n' :: '\n' :: bodyChars 1 m := by
  rw [gen_playlist_pls, plsGo_eq, String.data_append, data_plsBody]
  rfl

/-! ### Claim C3 -/

/-- C3 counterexample: the round-trip fails as a universal statement — a
manifest whose title contains a newline (possible, since the librivox title
pattern is compiled with `re.DOTALL`) produces a block of more than two
lines, which the blank-line-block parse cannot read back. -/
theorem c3_roundtrip_counterexample :
    parsePls (gen_playlist_pls [⟨"f.mp3", "http://x", "a\nb", none, none⟩])
      = none ∧
    ¬ parsePls (gen_playlist_pls [⟨"f.mp3", "http://x", "a\nb", none, none⟩])
      = some [("f.mp3", "a\nb")] := by
  have h1 : parsePls (gen_playlist_pls
      [⟨"f.mp3", "http://x", "a\nb", none, none⟩]) = none := rfl
  exact ⟨h1, by rw [h1]; simp⟩

/-- C3 (amended): for every manifest whose filenames and titles contain no
newline character, the `pls` text produced by `gen_playlist`, parsed back by
splitting on blank-line-separated blocks with each block read as the
consecutive line pair `File{n}={filename}` / `Title{n}={title}` (`n`
starting at 1), recovers exactly the manifest's (filename, title) pairs in
insertion order. -/
theorem c3_pls_roundtrip (m : List MEntry)
    (hn : ∀ e ∈ m, '\n' ∉ e.basename.data ∧ '\n' ∉ e.title.data) :
    parsePls (gen_playlist_pls m)
      = some (m.map (fun e => (e.basename, e.title))) := by
  have hdr_nl : '\n' ∉ "[playlist]".data := by decide
  simp only [parsePls]
  rw [gen_playlist_data]
  rw [show "[playlist]".data ++ '\n' :: '\n' :: bodyChars 1 m
      = "[playlist]".data ++ '\n' :: ('\n' :: bodyChars 1 m) from rfl]
  rw [splitSep_append '\n' _ hdr_nl, splitSep_cons_self,
    splitSep_nl_bodyChars m hn 1]
  rw [show ("[playlist]".data :: ([] : List Char) :: blockLines 1 m)
      = ["[playlist]".data] ++ ([] : List Char) :: blockLines 1 m from rfl]
  rw [splitSep_append ([] : List Char) _ (by decide), splitSep_blockLines m 1]
  rw [List.filter_cons_of_pos (by decide), filter_blockGroups m 1]
  simp [parseBlocks_blocksOnly m 1]

/-- A concrete manifest entry for the playlist round-trip witness. -/
def plE1 : MEntry := ⟨"a.mp3", "http://a", "A", none, none⟩

/-- A second concrete manifest entry for the playlist round-trip witness. -/
def plE2 : MEntry := ⟨"b.mp3", "http://b", "B", none, none⟩

theorem c3_pls_roundtrip_witness :
    (∀ e ∈ [plE1, plE2], '\n' ∉ e.basename.data ∧ '\n' ∉ e.title.data) ∧
    parsePls (gen_playlist_pls [plE1, plE2])
      = some [("a.mp3", "A"), ("b.mp3", "B")] :=
  ⟨by decide,
   (c3_pls_roundtrip [plE1, plE2] (by decide)).trans (by rfl)⟩

end Audiobook
